import Mathlib

/-!
Shallow embedding of the useSimpleFormState React hook
(src/use-simple-form-state.ts) and of the fragments of its external
collaborators that the hook observes: the fast-deep-equal structural
equality, the zod parse outcome (success, a ZodError carrying flattened
per-field message lists, or any other thrown failure), and the JavaScript
Number() conversion used by the numeric binding.

JavaScript values visible to the hook are modelled by the inductive type
Value (null, undefined, strings, numbers with NaN, booleans, and plain
objects as association lists). React state cells (values, errors, touched)
are gathered in a FormState record; each operation of the hook becomes a
pure function on FormState. Exceptions become Except results.
-/

set_option autoImplicit false

namespace UseSimpleFormState

/-- A JavaScript number as the hook observes it: either NaN or an ordinary
(here: integral) number. The fractional part of JS doubles plays no role in
the hook, so finite numbers are carried as integers. -/
inductive JsNum where
  | nan
  | int (val : Int)
deriving DecidableEq, Repr

/-- A JavaScript value of the shapes the hook can store or compare:
null, undefined, string, number, boolean, or a plain object whose fields
are an association list in property order (JS objects never repeat a key;
wellFormed below records that). -/
inductive Value where
  | null
  | undefined
  | str (s : String)
  | num (n : JsNum)
  | bool (b : Bool)
  | obj (fields : List (String × Value))

/-- JS loose nullish test: v == null, true exactly for null and undefined. -/
def Value.isNullish : Value → Bool
  | .null => true
  | .undefined => true
  | _ => false

/-- typeof v === "string". -/
def Value.isString : Value → Bool
  | .str _ => true
  | _ => false

/-- typeof v === "number" (NaN included, as in JS). -/
def Value.isNumber : Value → Bool
  | .num _ => true
  | _ => false

/-- typeof v === "boolean". -/
def Value.isBool : Value → Bool
  | .bool _ => true
  | _ => false

/-- JS truthiness coercion !!v: null, undefined, empty string, 0 and NaN are
falsy; objects are always truthy. -/
def Value.toBool : Value → Bool
  | .null => false
  | .undefined => false
  | .str s => !(s == "")
  | .num .nan => false
  | .num (.int i) => !(i == 0)
  | .bool b => b
  | .obj _ => true

/-- The JS nullish-coalescing operator a ?? d. -/
def jsCoalesce (v d : Value) : Value :=
  if v.isNullish then d else v

/-- First value stored under key k in an association list, as JS property
lookup would find it. -/
def lookupEntry {α : Type} (m : List (String × α)) (k : String) : Option α :=
  (m.find? (fun p => p.1 == k)).map (fun p => p.2)

/-- JS property read values[k]: undefined when the key is absent. -/
def getField (m : List (String × Value)) (k : String) : Value :=
  (lookupEntry m k).getD .undefined

/-- Numeric equality as fast-deep-equal decides it: strict equality, except
that its final clause (a !== a and b !== b) makes two NaN values equal. -/
def jsNumEq : JsNum → JsNum → Bool
  | .nan, .nan => true
  | .int a, .int b => a == b
  | _, _ => false

mutual

/-- Embedding of fast-deep-equal: primitives by (NaN-aware) strict equality,
objects by equal key count plus, for every field of the left object, a field
of the same name in the right object with a deep-equal value. -/
def isEqual : Value → Value → Bool
  | .null, .null => true
  | .undefined, .undefined => true
  | .str a, .str b => a == b
  | .num a, .num b => jsNumEq a b
  | .bool a, .bool b => a == b
  | .obj fa, .obj fb => (fa.length == fb.length) && fieldsSubset fa fb
  | _, _ => false
termination_by a b => sizeOf a + sizeOf b
decreasing_by all_goals (simp_wf; try omega)

/-- Every field of the first list has a deep-equal counterpart (looked up by
key) in the second list; the per-key loop of fast-deep-equal. -/
def fieldsSubset : List (String × Value) → List (String × Value) → Bool
  | [], _ => true
  | (k, v) :: rest, fb => findEq k v fb && fieldsSubset rest fb
termination_by fa fb => sizeOf fa + sizeOf fb
decreasing_by all_goals (simp_wf; try omega)

/-- Scan fb for key k and deep-compare its value against v;
false when the key is absent (the hasOwnProperty check). -/
def findEq : String → Value → List (String × Value) → Bool
  | _, _, [] => false
  | k, v, (k2, w) :: rest => if k = k2 then isEqual v w else findEq k v rest
termination_by _ v fb => sizeOf v + sizeOf fb
decreasing_by all_goals (simp_wf; try omega)

end

/-- No key occurs twice in a field list (JS objects cannot repeat a key). -/
def keysNodup : List (String × Value) → Bool
  | [] => true
  | (k, _) :: rest => !(rest.any (fun p => p.1 == k)) && keysNodup rest

mutual

/-- A value graph that can exist as a JS value: every object in it has
pairwise distinct keys. -/
def Value.wellFormed : Value → Bool
  | .obj fs => keysNodup fs && fieldsWellFormed fs
  | _ => true
termination_by v => sizeOf v
decreasing_by all_goals (simp_wf; try omega)

/-- All values of a field list are well-formed. -/
def fieldsWellFormed : List (String × Value) → Bool
  | [] => true
  | (_, v) :: rest => v.wellFormed && fieldsWellFormed rest
termination_by fs => sizeOf fs
decreasing_by all_goals (simp_wf; try omega)

end

mutual

/-- Embedding of structuredClone on the modelled value universe: rebuilds
the whole graph, sharing nothing with the input. -/
def structuredClone : Value → Value
  | .null => .null
  | .undefined => .undefined
  | .str s => .str s
  | .num n => .num n
  | .bool b => .bool b
  | .obj fs => .obj (cloneFields fs)
termination_by v => sizeOf v
decreasing_by all_goals (simp_wf; try omega)

/-- Clone every field of an object. -/
def cloneFields : List (String × Value) → List (String × Value)
  | [] => []
  | (k, v) :: rest => (k, structuredClone v) :: cloneFields rest
termination_by fs => sizeOf fs
decreasing_by all_goals (simp_wf; try omega)

end

/-- A field-name-keyed record, in JS property order. -/
abbrev Fields := List (String × Value)

/-- The JS object spread previous with the single property name set to v:
if the key exists its entry is overwritten in place (property order kept),
otherwise the new entry is appended at the end. -/
def setEntry {α : Type} (m : List (String × α)) (k : String) (v : α) :
    List (String × α) :=
  if m.any (fun p => p.1 == k) then
    m.map (fun p => if p.1 == k then (k, v) else p)
  else
    m ++ [(k, v)]

/-- The three React state cells of the hook: values, errors and touched. -/
structure FormState where
  values : Fields
  errors : List (String × String)
  touched : List (String × Bool)

/-- Embedding of setFieldValue: writes the one field into values and marks
the same field touched; errors are not part of either updater. -/
def setFieldValue (s : FormState) (name : String) (v : Value) : FormState :=
  { s with
    values := setEntry s.values name v
    touched := setEntry s.touched name true }

/-- What a throw out of schema.parse can be: a ZodError carrying the
flattened fieldErrors mapping (one message list per field), or any other
thrown value (the error instanceof ZodError test fails on it). -/
inductive JsError where
  | zodError (fieldErrors : List (String × List String))
  | other (message : String)

/-- A zod schema as validate observes it: parsing the candidate values
either returns normally or throws a JsError. -/
abbrev Schema := Fields → Except JsError Unit

/-- Embedding of messages.join(", "). -/
def joinComma : List String → String
  | [] => ""
  | [m] => m
  | m :: rest => m ++ ", " ++ joinComma rest

/-- The loop of validate over Object.entries(flattenedErrors): keeps the
entries whose message list is non-empty, joining the messages with a comma
separator. -/
def fieldErrorsToErrors (fe : List (String × List String)) :
    List (String × String) :=
  fe.filterMap (fun p =>
    if p.2.isEmpty then none else some (p.1, joinComma p.2))

/-- Embedding of validate: try schema.parse(values); on normal return clear
errors and return true; on a throw, catch it: if it is a ZodError overwrite
errors with the flattened joined mapping, otherwise leave the state alone;
either way the catch block returns false. The Except result records whether
anything escapes validate itself: since the catch has no rethrow, the
result is always ok. -/
def validate (parse : Schema) (s : FormState) :
    Except JsError (Bool × FormState) :=
  match parse s.values with
  | .ok _ => .ok (true, { s with errors := [] })
  | .error (.zodError fe) =>
      .ok (false, { s with errors := fieldErrorsToErrors fe })
  | .error (.other _) => .ok (false, s)

/-- Embedding of reset: values becomes a structured clone of the initial
values; errors and touched become empty. -/
def reset (initialValues : Fields) (_s : FormState) : FormState :=
  { values := cloneFields initialValues
    errors := []
    touched := [] }

/-- Embedding of the dirty memo: for each key of values, negated
fast-deep-equal of the current and initial value of that key. -/
def dirty (initialValues : Fields) (values : Fields) : List (String × Bool) :=
  values.map (fun p =>
    (p.1, !(isEqual (getField values p.1) (getField initialValues p.1))))

/-- Embedding of the isDirty memo: Object.values(dirty).some(Boolean). -/
def isDirty (d : List (String × Bool)) : Bool :=
  d.any (fun p => p.2)

/-- The props object built by the text binding. -/
structure TextAdapter where
  name : String
  value : Value
  onChange : String → FormState

/-- Embedding of bind.text: throws when the current value is neither nullish
nor a string; otherwise returns the props with the current value (nullish
rendered as the empty string) and a change handler writing the raw event
string through setFieldValue. -/
def text (s : FormState) (name : String) : Except String TextAdapter :=
  if !(getField s.values name).isNullish && !(getField s.values name).isString
  then
    .error ("useSimpleFormState.text(): field " ++ name ++ " is not a string")
  else
    .ok
      { name := name
        value := jsCoalesce (getField s.values name) (.str "")
        onChange := fun input => setFieldValue s name (.str input) }

/-- Decimal reading of a digit sequence. -/
def digitsToNat (cs : List Char) : Nat :=
  cs.foldl (fun n c => n * 10 + (c.toNat - 48)) 0

/-- Model of the JavaScript Number() builtin on the strings this development
needs: the empty string converts to 0, a non-empty digit string (with an
optional leading minus sign) to the corresponding integer, and every other
string to NaN. -/
def jsNumberOfString (str : String) : JsNum :=
  match str.toList with
  | [] => .int 0
  | c :: cs =>
      if (c :: cs).all Char.isDigit then .int (Int.ofNat (digitsToNat (c :: cs)))
      else if c = '-' ∧ cs ≠ [] ∧ cs.all Char.isDigit then
        .int (-(Int.ofNat (digitsToNat cs)))
      else .nan

/-- The props object built by the number binding. -/
structure NumberAdapter where
  name : String
  value : Value
  onChange : String → FormState

/-- Embedding of bind.number: throws when the current value is neither
nullish nor a number; otherwise returns the props with a change handler that
stores null for the empty input string and Number(input) for any other
input, with no check that the conversion succeeded. -/
def number (s : FormState) (name : String) : Except String NumberAdapter :=
  if !(getField s.values name).isNullish && !(getField s.values name).isNumber
  then
    .error ("useSimpleFormState.number(): field " ++ name ++ " is not a number")
  else
    .ok
      { name := name
        value := jsCoalesce (getField s.values name) (.str "")
        onChange := fun input =>
          setFieldValue s name
            (if input = "" then .null else .num (jsNumberOfString input)) }

/-- The props object built by the checkbox binding. -/
structure CheckboxAdapter where
  name : String
  checked : Bool
  onChange : Bool → FormState

/-- Embedding of bind.checkbox: throws when the current value is neither
nullish nor a boolean; otherwise returns the props with checked being the
truthiness coercion of the current value and a change handler storing the
raw event boolean. -/
def checkbox (s : FormState) (name : String) : Except String CheckboxAdapter :=
  if !(getField s.values name).isNullish && !(getField s.values name).isBool
  then
    .error
      ("useSimpleFormState.checkbox(): field " ++ name ++ " is not a boolean")
  else
    .ok
      { name := name
        checked := (getField s.values name).toBool
        onChange := fun b => setFieldValue s name (.bool b) }

/-- The props object built by the select binding. -/
structure SelectAdapter where
  name : String
  value : Value
  onChange : String → FormState

/-- Embedding of bind.select: no type check; nullish renders as the empty
string and the change handler stores the raw event string. -/
def select (s : FormState) (name : String) : SelectAdapter :=
  { name := name
    value := jsCoalesce (getField s.values name) (.str "")
    onChange := fun input => setFieldValue s name (.str input) }

/-! Concrete inputs used by witnesses and counterexamples. -/

/-- A sample two-field state used by several witnesses. -/
def sampleState : FormState :=
  { values := [("a", .str "x"), ("b", .num (.int 3))]
    errors := [("a", "Required")]
    touched := [] }

/-- A state holding a boolean field, a string field and nothing else. -/
def boolState : FormState :=
  { values := [("flag", .bool true), ("s", .str "x")]
    errors := []
    touched := [] }

/-- A state whose single field holds a string (a mismatch for the checkbox
binding). -/
def mismatchState : FormState :=
  { values := [("f", .str "x")]
    errors := []
    touched := [] }

/-- A state whose single numeric field currently holds null. -/
def nullNumberState : FormState :=
  { values := [("n", .null)]
    errors := []
    touched := [] }

/-- A schema whose parse always throws a non-ZodError failure. -/
def throwingParse : Schema := fun _ => .error (.other "boom")

/-- A schema whose parse always returns success. -/
def goodParse : Schema := fun _ => .ok ()

/-- A schema whose parse always throws a ZodError with two messages on one
field, as in the two-rule example of the specification. -/
def twoRuleParse : Schema :=
  fun _ => .error (.zodError [("f", ["Required", "Too short"])])

/-- A schema whose parse always throws a ZodError holding one field with a
single empty message string. -/
def emptyMessageParse : Schema := fun _ => .error (.zodError [("f", [""])])

/-- Sample initial values for the reset claim. -/
def sampleInitialValues : Fields :=
  [("name", .str ""), ("age", .num (.int 0)),
   ("profile", .obj [("city", .str "")])]

/-- A state reached from the sample initial values by a field write. -/
def mutatedState : FormState :=
  setFieldValue
    { values := sampleInitialValues, errors := [], touched := [] }
    "age" (.num (.int 5))

/-- The adapter that bind.number returns on the null-valued numeric field of
nullNumberState. -/
def nullNumberAdapter : NumberAdapter :=
  { name := "n"
    value := .str ""
    onChange := fun input =>
      setFieldValue nullNumberState "n"
        (if input = "" then .null else .num (jsNumberOfString input)) }

/-! Association-list lemmas about setEntry and lookupEntry. -/

theorem lookupEntry_nil {α : Type} (k : String) :
    lookupEntry ([] : List (String × α)) k = none := rfl

theorem lookupEntry_cons {α : Type} (k1 : String) (v1 : α)
    (rest : List (String × α)) (k : String) :
    lookupEntry ((k1, v1) :: rest) k =
      if k1 == k then some v1 else lookupEntry rest k := by
  by_cases h : k1 == k <;> simp [lookupEntry, List.find?, h]

theorem lookupEntry_replace_self {α : Type} (k : String) (v : α) :
    ∀ (m : List (String × α)), m.any (fun p => p.1 == k) = true →
      lookupEntry (m.map (fun p => if p.1 == k then (k, v) else p)) k = some v := by
  intro m
  induction m with
  | nil => intro h; simp at h
  | cons hd tl ih =>
      intro h
      by_cases hk : hd.1 == k
      · simp [hk, lookupEntry, List.find?]
      · have htl : tl.any (fun p => p.1 == k) = true := by
          simp [List.any_cons, hk] at h
          simpa using h
        have := ih htl
        simpa [hk, lookupEntry, List.find?] using this

theorem lookupEntry_append_absent {α : Type} (k : String) (v : α) :
    ∀ (m : List (String × α)), m.any (fun p => p.1 == k) = false →
      lookupEntry (m ++ [(k, v)]) k = some v := by
  intro m
  induction m with
  | nil => intro _; simp [lookupEntry, List.find?]
  | cons hd tl ih =>
      intro h
      simp [List.any_cons] at h
      have hk : (hd.1 == k) = false := by
        simpa using h.1
      have htl := ih (by simpa using h.2)
      simpa [lookupEntry, List.find?, hk] using htl

/-- Writing key k stores exactly v at k. -/
theorem lookupEntry_setEntry_self {α : Type} (m : List (String × α))
    (k : String) (v : α) :
    lookupEntry (setEntry m k v) k = some v := by
  unfold setEntry
  by_cases h : m.any (fun p => p.1 == k)
  · simpa [h] using lookupEntry_replace_self k v m h
  · simp only [h]
    exact lookupEntry_append_absent k v m
      (by simp only [Bool.not_eq_true] at h; exact h)

theorem lookupEntry_replace_other {α : Type} (k g : String) (v : α)
    (hne : g ≠ k) :
    ∀ (m : List (String × α)),
      lookupEntry (m.map (fun p => if p.1 == k then (k, v) else p)) g =
        lookupEntry m g := by
  intro m
  induction m with
  | nil => rfl
  | cons hd tl ih =>
      by_cases hk : hd.1 == k
      · have hd1 : hd.1 = k := by simpa using hk
        have hg : (k == g) = false := by simp [Ne.symm hne]
        have hg2 : (hd.1 == g) = false := by simp [hd1, Ne.symm hne]
        simp only [List.map_cons, hk, if_pos]
        rw [lookupEntry_cons, lookupEntry_cons, hg, hg2, if_neg, if_neg, ih]
        · simp
        · simp
      · simp only [List.map_cons, hk, if_neg, Bool.false_eq_true,
          not_false_iff]
        rw [lookupEntry_cons, lookupEntry_cons, ih]

theorem lookupEntry_append_other {α : Type} (k g : String) (v : α)
    (hne : g ≠ k) :
    ∀ (m : List (String × α)),
      lookupEntry (m ++ [(k, v)]) g = lookupEntry m g := by
  intro m
  induction m with
  | nil =>
      have hg : (k == g) = false := by simp [Ne.symm hne]
      simp [lookupEntry, List.find?, hg]
  | cons hd tl ih =>
      simp only [List.cons_append]
      rw [lookupEntry_cons, lookupEntry_cons]
      by_cases hgg : hd.1 == g
      · simp [hgg]
      · simp [hgg, ih]

/-- Writing key k leaves every other key unchanged. -/
theorem lookupEntry_setEntry_other {α : Type} (m : List (String × α))
    (k g : String) (v : α) (hne : g ≠ k) :
    lookupEntry (setEntry m k v) g = lookupEntry m g := by
  unfold setEntry
  by_cases h : m.any (fun p => p.1 == k)
  · simp only [h, if_pos]
    exact lookupEntry_replace_other k g v hne m
  · simp only [h, Bool.false_eq_true, if_neg, not_false_iff]
    exact lookupEntry_append_other k g v hne m

/-- C4. Immediately after setFieldValue f v: values at f is v and touched at
f is true; at every other key g both values and touched are untouched; and
errors is untouched (setFieldValue triggers no validation). -/
theorem C4_setFieldValue_frame (s : FormState) (f : String) (v : Value) :
    getField (setFieldValue s f v).values f = v ∧
    lookupEntry (setFieldValue s f v).touched f = some true ∧
    (∀ g, g ≠ f →
      getField (setFieldValue s f v).values g = getField s.values g ∧
      lookupEntry (setFieldValue s f v).touched g = lookupEntry s.touched g) ∧
    (setFieldValue s f v).errors = s.errors := by
  refine ⟨?_, ?_, ?_, rfl⟩
  · simp [setFieldValue, getField, lookupEntry_setEntry_self]
  · simp [setFieldValue, lookupEntry_setEntry_self]
  · intro g hg
    constructor
    · simp [setFieldValue, getField, lookupEntry_setEntry_other _ _ _ _ hg]
    · simp [setFieldValue, lookupEntry_setEntry_other _ _ _ _ hg]

/-- Witness for C4 at a concrete state: set field a to a new string and
observe field b and the errors untouched. -/
theorem C4_setFieldValue_frame_witness :
    getField (setFieldValue sampleState "a" (.str "y")).values "a" = .str "y" ∧
    lookupEntry (setFieldValue sampleState "a" (.str "y")).touched "a" =
      some true ∧
    ("b" ≠ "a" ∧
      getField (setFieldValue sampleState "a" (.str "y")).values "b" =
        getField sampleState.values "b") ∧
    (setFieldValue sampleState "a" (.str "y")).errors = sampleState.errors := by
  have h := C4_setFieldValue_frame sampleState "a" (.str "y")
  exact ⟨h.1, h.2.1, ⟨by decide, (h.2.2.1 "b" (by decide)).1⟩, h.2.2.2⟩

/-! Lemmas about the flattened error mapping built by validate. -/

/-- Unfolding fieldErrorsToErrors past a field with no messages. -/
theorem fieldErrorsToErrors_cons_empty (k : String)
    (tl : List (String × List String)) :
    fieldErrorsToErrors ((k, []) :: tl) = fieldErrorsToErrors tl := rfl

/-- Unfolding fieldErrorsToErrors past a field with messages. -/
theorem fieldErrorsToErrors_cons_ne (k : String) (ms : List String)
    (tl : List (String × List String)) (h : ms ≠ []) :
    fieldErrorsToErrors ((k, ms) :: tl) =
      (k, joinComma ms) :: fieldErrorsToErrors tl := by
  cases ms with
  | nil => exact absurd rfl h
  | cons a t => rfl

/-- With pairwise distinct keys, a field reported with a non-empty message
list ends up in the flattened errors with its messages joined by a comma. -/
theorem lookupEntry_fieldErrorsToErrors
    (k : String) (ms : List String) :
    ∀ (fe : List (String × List String)), (fe.map Prod.fst).Nodup →
      (k, ms) ∈ fe → ms ≠ [] →
      lookupEntry (fieldErrorsToErrors fe) k = some (joinComma ms) := by
  intro fe
  induction fe with
  | nil => intro _ hmem _; simp at hmem
  | cons hd tl ih =>
      intro hnd hmem hne
      obtain ⟨k1, ms1⟩ := hd
      simp only [List.map_cons, List.nodup_cons] at hnd
      rcases List.mem_cons.mp hmem with hhd | htl
      · injection hhd with hk hms2
        subst hk
        subst hms2
        rw [fieldErrorsToErrors_cons_ne k ms tl hne, lookupEntry_cons]
        simp
      · have hk1 : k1 ≠ k := by
          intro hkk
          subst hkk
          exact hnd.1 (List.mem_map.mpr ⟨(k1, ms), htl, rfl⟩)
        have hbk : (k1 == k) = false := by simp [hk1]
        by_cases hms1 : ms1 = []
        · subst hms1
          rw [fieldErrorsToErrors_cons_empty]
          exact ih hnd.2 htl hne
        · rw [fieldErrorsToErrors_cons_ne k1 ms1 tl hms1, lookupEntry_cons,
            hbk]
          simp only [Bool.false_eq_true, if_neg, not_false_iff]
          exact ih hnd.2 htl hne

/-- Every entry of the flattened errors comes from a field the validator
reported with a non-empty message list, and its value is the joined list. -/
theorem lookupEntry_fieldErrorsToErrors_inv
    (k : String) (msg : String) :
    ∀ (fe : List (String × List String)),
      lookupEntry (fieldErrorsToErrors fe) k = some msg →
      ∃ ms, (k, ms) ∈ fe ∧ ms ≠ [] ∧ msg = joinComma ms := by
  intro fe
  induction fe with
  | nil => intro h; simp [fieldErrorsToErrors, lookupEntry, List.find?] at h
  | cons hd tl ih =>
      intro h
      obtain ⟨k1, ms1⟩ := hd
      by_cases hms1 : ms1 = []
      · subst hms1
        rw [fieldErrorsToErrors_cons_empty] at h
        obtain ⟨ms, hmem, hne, hj⟩ := ih h
        exact ⟨ms, List.mem_cons_of_mem _ hmem, hne, hj⟩
      · rw [fieldErrorsToErrors_cons_ne k1 ms1 tl hms1, lookupEntry_cons] at h
        by_cases hk : k1 == k
        · have hk1 : k1 = k := by simpa using hk
          rw [hk] at h
          simp only [if_pos] at h
          subst hk1
          exact ⟨ms1, List.mem_cons_self _ _, hms1,
            (Option.some.inj h).symm⟩
        · have hbk : (k1 == k) = false := by simpa using hk
          rw [hbk] at h
          simp only [Bool.false_eq_true, if_neg, not_false_iff] at h
          obtain ⟨ms, hmem, hne, hj⟩ := ih h
          exact ⟨ms, List.mem_cons_of_mem _ hmem, hne, hj⟩

/-- A field all of whose reports are empty message lists gets no entry. -/
theorem lookupEntry_fieldErrorsToErrors_none
    (k : String) (fe : List (String × List String))
    (h : ∀ ms, (k, ms) ∈ fe → ms = []) :
    lookupEntry (fieldErrorsToErrors fe) k = none := by
  cases hl : lookupEntry (fieldErrorsToErrors fe) k with
  | none => rfl
  | some msg =>
      obtain ⟨ms, hmem, hne, _⟩ := lookupEntry_fieldErrorsToErrors_inv k msg fe hl
      exact absurd (h ms hmem) hne

/-- C1 (amended). A failure thrown by schema.parse that is not a ZodError is
caught by the catch-all of validate: validate returns normally with false
and the state untouched; nothing is routed into errors and nothing
propagates. -/
theorem C1_validate_swallows_non_zod (parse : Schema) (s : FormState)
    (msg : String) (h : parse s.values = .error (.other msg)) :
    validate parse s = .ok (false, s) := by
  unfold validate
  rw [h]

/-- C1 counterexample: with a schema throwing a non-ZodError failure,
validate does not propagate it; it returns the value false with the state
unchanged, contradicting the claim that such failures escape validate. -/
theorem C1_counterexample :
    validate throwingParse sampleState = .ok (false, sampleState) := rfl

/-- Witness for C1 (amended) at the concrete throwing schema. -/
theorem C1_validate_swallows_non_zod_witness :
    validate throwingParse sampleState = .ok (false, sampleState) :=
  C1_validate_swallows_non_zod throwingParse sampleState "boom" rfl

/-- C6. validate never writes values or touched, whatever the parse
outcome: only the errors cell can change. -/
theorem C6_validate_frame (parse : Schema) (s : FormState) (b : Bool)
    (s2 : FormState) (h : validate parse s = .ok (b, s2)) :
    s2.values = s.values ∧ s2.touched = s.touched := by
  unfold validate at h
  cases hp : parse s.values with
  | ok u =>
      rw [hp] at h
      cases h
      exact ⟨rfl, rfl⟩
  | error e =>
      cases e with
      | zodError fe =>
          rw [hp] at h
          cases h
          exact ⟨rfl, rfl⟩
      | other msg =>
          rw [hp] at h
          cases h
          exact ⟨rfl, rfl⟩

/-- Witness for C6: a successful validation at the sample state leaves its
values and touched cells exactly as they were. -/
theorem C6_validate_frame_witness :
    ({ values := [("a", Value.str "x"), ("b", Value.num (JsNum.int 3))]
       errors := []
       touched := [] } : FormState).values = sampleState.values ∧
    ({ values := [("a", Value.str "x"), ("b", Value.num (JsNum.int 3))]
       errors := []
       touched := [] } : FormState).touched = sampleState.touched :=
  C6_validate_frame (fun _ => Except.ok ()) sampleState true _ rfl

/-- C2. On a successful parse, validate clears errors and returns true; on a
ZodError, validate overwrites errors with the flattened mapping and returns
false, and (with the distinct keys a JS object guarantees) a field reported
with messages carries them joined by a comma separator. -/
theorem C2_validate_outcomes (parse : Schema) (s : FormState) :
    (parse s.values = .ok () →
      validate parse s = .ok (true, { s with errors := [] })) ∧
    (∀ fe, parse s.values = .error (.zodError fe) →
      validate parse s =
        .ok (false, { s with errors := fieldErrorsToErrors fe }) ∧
      ((fe.map Prod.fst).Nodup → ∀ k ms, (k, ms) ∈ fe → ms ≠ [] →
        lookupEntry (fieldErrorsToErrors fe) k = some (joinComma ms))) := by
  constructor
  · intro h
    unfold validate
    rw [h]
  · intro fe h
    constructor
    · unfold validate
      rw [h]
    · intro hnd k ms hmem hne
      exact lookupEntry_fieldErrorsToErrors k ms fe hnd hmem hne

/-- Witness for C2: success clears errors and returns true at the sample
state; the two-message ZodError produces the single joined message. -/
theorem C2_validate_outcomes_witness :
    validate goodParse sampleState =
      .ok (true, { sampleState with errors := [] }) ∧
    validate twoRuleParse sampleState =
      .ok (false,
        { sampleState with errors := [("f", "Required, Too short")] }) ∧
    lookupEntry (fieldErrorsToErrors [("f", ["Required", "Too short"])]) "f" =
      some "Required, Too short" := by
  have h1 := (C2_validate_outcomes goodParse sampleState).1 rfl
  have h2 := (C2_validate_outcomes twoRuleParse sampleState).2
    [("f", ["Required", "Too short"])] rfl
  exact ⟨h1, h2.1,
    h2.2 (by simp) "f" ["Required", "Too short"] (by simp) (by simp)⟩

/-- Joining a non-empty list of non-empty messages is non-empty. -/
theorem joinComma_ne_empty :
    ∀ (ms : List String), ms ≠ [] → (∀ m ∈ ms, m ≠ "") →
      joinComma ms ≠ "" := by
  intro ms
  match ms with
  | [] => intro h _; exact absurd rfl h
  | [m] =>
      intro _ hm
      simpa [joinComma] using hm m (by simp)
  | m :: m2 :: rest =>
      intro _ _
      show m ++ ", " ++ joinComma (m2 :: rest) ≠ ""
      intro hc
      have hlen : (m ++ ", " ++ joinComma (m2 :: rest)).length = 0 := by
        rw [hc]; rfl
      have h2 : (", ").length = 2 := rfl
      rw [String.length_append, String.length_append, h2] at hlen
      omega

/-- C10 (amended). The errors mapping written by validate on a ZodError has
an entry for a field only when the validator reported a non-empty message
list for it (empty or missing lists yield no entry), and every stored value
is the comma-join of such a list, hence non-empty whenever every reported
message is a non-empty string. -/
theorem C10_errors_entries (parse : Schema) (s : FormState)
    (fe : List (String × List String))
    (h : parse s.values = .error (.zodError fe)) :
    validate parse s =
      .ok (false, { s with errors := fieldErrorsToErrors fe }) ∧
    (∀ k, (∀ ms, (k, ms) ∈ fe → ms = []) →
      lookupEntry (fieldErrorsToErrors fe) k = none) ∧
    (∀ k msg, lookupEntry (fieldErrorsToErrors fe) k = some msg →
      ∃ ms, (k, ms) ∈ fe ∧ ms ≠ [] ∧ msg = joinComma ms ∧
        ((∀ m ∈ ms, m ≠ "") → msg ≠ "")) := by
  refine ⟨?_, ?_, ?_⟩
  · unfold validate
    rw [h]
  · intro k hk
    exact lookupEntry_fieldErrorsToErrors_none k fe hk
  · intro k msg hl
    obtain ⟨ms, hmem, hne, hj⟩ := lookupEntry_fieldErrorsToErrors_inv k msg fe hl
    refine ⟨ms, hmem, hne, hj, ?_⟩
    intro hall
    rw [hj]
    exact joinComma_ne_empty ms hne hall

/-- C10 counterexample: a ZodError whose message list for field f is the
one-element list holding the empty string produces an errors entry for f
whose stored value is the empty string, refuting the claim that every value
stored in errors is a non-empty string. -/
theorem C10_counterexample :
    validate emptyMessageParse sampleState =
      .ok (false, { sampleState with errors := [("f", "")] }) ∧
    lookupEntry ([("f", "")] : List (String × String)) "f" = some "" :=
  ⟨rfl, rfl⟩

/-- Witness for C10 (amended): the two-message ZodError puts an entry at f
and none at the unreported field g. -/
theorem C10_errors_entries_witness :
    validate twoRuleParse sampleState =
      .ok (false,
        { sampleState with errors := [("f", "Required, Too short")] }) ∧
    lookupEntry (fieldErrorsToErrors [("f", ["Required", "Too short"])]) "g" =
      none := by
  have h := C10_errors_entries twoRuleParse sampleState
    [("f", ["Required", "Too short"])] rfl
  refine ⟨h.1, h.2.1 "g" ?_⟩
  intro ms hm
  simp at hm

/-! Lemmas for the dirty computation. -/

/-- Looking up a key of a map built by applying a key-determined function to
every entry yields that function of the key. -/
theorem lookupEntry_map_keyed {α β : Type} (f : String → β) :
    ∀ (m : List (String × α)) (k : String), k ∈ m.map Prod.fst →
      lookupEntry (m.map (fun p => (p.1, f p.1))) k = some (f k) := by
  intro m
  induction m with
  | nil => intro k hk; simp at hk
  | cons hd tl ih =>
      intro k hk
      obtain ⟨k1, v1⟩ := hd
      by_cases hkk : k1 == k
      · have hk1 : k1 = k := by simpa using hkk
        subst hk1
        simp only [List.map_cons]
        rw [lookupEntry_cons]
        simp
      · have hne : k1 ≠ k := by simpa using hkk
        have htl : k ∈ tl.map Prod.fst := by
          rcases List.mem_map.mp hk with ⟨q, hq, hqk⟩
          rcases List.mem_cons.mp hq with hqh | hqt
          · exact absurd (by rw [hqh] at hqk; simpa using hqk) hne
          · exact List.mem_map.mpr ⟨q, hqt, hqk⟩
        simp only [List.map_cons]
        rw [lookupEntry_cons]
        have : (k1 == k) = false := by simpa using hkk
        rw [this]
        simp only [Bool.false_eq_true, if_neg, not_false_iff]
        exact ih k htl

/-- C3. The derived dirty mapping carries, at every key present in values,
exactly the negated deep equality of the current and initial value of that
key, and isDirty is true exactly when some dirty entry is true. -/
theorem C3_dirty_pointwise (initialValues values : Fields) :
    (∀ k, k ∈ values.map Prod.fst →
      lookupEntry (dirty initialValues values) k =
        some (!(isEqual (getField values k) (getField initialValues k)))) ∧
    (isDirty (dirty initialValues values) = true ↔
      ∃ p ∈ dirty initialValues values, p.2 = true) := by
  constructor
  · intro k hk
    exact lookupEntry_map_keyed
      (fun k2 => !(isEqual (getField values k2) (getField initialValues k2)))
      values k hk
  · simp [isDirty, List.any_eq_true]

/-- Witness for C3: with initial value the empty string and current value a
non-empty string, the dirty entry of the key computes from isEqual. -/
theorem C3_dirty_pointwise_witness :
    lookupEntry (dirty [("a", Value.str "")] [("a", Value.str "x")]) "a" =
      some (!(isEqual (getField [("a", Value.str "x")] "a")
        (getField [("a", Value.str "")] "a"))) :=
  (C3_dirty_pointwise [("a", Value.str "")] [("a", Value.str "x")]).1
    "a" (by simp)

/-! Structured cloning and reflexivity of deep equality. -/

mutual

/-- In the pure value model, a structured clone is the value itself. -/
theorem structuredClone_eq_self : ∀ (v : Value), structuredClone v = v
  | .null => by simp [structuredClone]
  | .undefined => by simp [structuredClone]
  | .str _ => by simp [structuredClone]
  | .num _ => by simp [structuredClone]
  | .bool _ => by simp [structuredClone]
  | .obj fs => by
      simp only [structuredClone]
      rw [cloneFields_eq_self fs]
termination_by v => sizeOf v
decreasing_by all_goals (simp_wf; try omega)

/-- Cloning every field changes nothing. -/
theorem cloneFields_eq_self :
    ∀ (fs : List (String × Value)), cloneFields fs = fs
  | [] => by simp [cloneFields]
  | (k, v) :: rest => by
      simp only [cloneFields]
      rw [structuredClone_eq_self v, cloneFields_eq_self rest]
termination_by fs => sizeOf fs
decreasing_by all_goals (simp_wf; try omega)

end

/-- A value of a well-formed field list is well-formed. -/
theorem wellFormed_of_mem (k : String) (v : Value) :
    ∀ (fs : List (String × Value)), fieldsWellFormed fs = true →
      (k, v) ∈ fs → v.wellFormed = true := by
  intro fs
  induction fs with
  | nil => intro _ hmem; simp at hmem
  | cons hd tl ih =>
      intro hwf hmem
      obtain ⟨k1, v1⟩ := hd
      rw [fieldsWellFormed] at hwf
      rw [Bool.and_eq_true] at hwf
      rcases List.mem_cons.mp hmem with hhd | htl
      · injection hhd with hk hv
        subst hv
        exact hwf.1
      · exact ih hwf.2 htl

/-- What lookupEntry finds is a member of the list. -/
theorem mem_of_lookupEntry_eq_some {α : Type} (k : String) (v : α) :
    ∀ (m : List (String × α)), lookupEntry m k = some v → (k, v) ∈ m := by
  intro m
  induction m with
  | nil => intro h; simp [lookupEntry, List.find?] at h
  | cons hd tl ih =>
      intro h
      obtain ⟨k1, v1⟩ := hd
      rw [lookupEntry_cons] at h
      by_cases hk : k1 == k
      · have hk1 : k1 = k := by simpa using hk
        rw [hk] at h
        simp only [if_pos] at h
        rw [hk1, Option.some.inj h]
        exact List.mem_cons_self _ _
      · have hbk : (k1 == k) = false := by simpa using hk
        rw [hbk] at h
        simp only [Bool.false_eq_true, if_neg, not_false_iff] at h
        exact List.mem_cons_of_mem _ (ih h)

/-- Reading any key of a well-formed field list yields a well-formed
value (an absent key reads as undefined, which is well-formed). -/
theorem getField_wellFormed (m : Fields) (hwf : fieldsWellFormed m = true)
    (k : String) : (getField m k).wellFormed = true := by
  unfold getField
  cases hl : lookupEntry m k with
  | none => simp [Value.wellFormed]
  | some v =>
      simp only [Option.getD_some]
      exact wellFormed_of_mem k v m hwf (mem_of_lookupEntry_eq_some k v m hl)

/-- With distinct keys, scanning for a present entry deep-compares the entry
against itself. -/
theorem findEq_self (k : String) (v : Value) :
    ∀ (fs : List (String × Value)), keysNodup fs = true → (k, v) ∈ fs →
      isEqual v v = true → findEq k v fs = true := by
  intro fs
  induction fs with
  | nil => intro _ hmem _; simp at hmem
  | cons hd tl ih =>
      intro hnd hmem hself
      obtain ⟨k1, v1⟩ := hd
      rw [keysNodup] at hnd
      rw [Bool.and_eq_true] at hnd
      rcases List.mem_cons.mp hmem with hhd | htl
      · injection hhd with hk hv
        subst hk
        subst hv
        simp [findEq, hself]
      · have hk1 : k ≠ k1 := by
          intro hkk
          subst hkk
          have : tl.any (fun p => p.1 == k) = true :=
            List.any_eq_true.mpr ⟨(k, v), htl, by simp⟩
          rw [this] at hnd
          simpa using hnd.1
        rw [findEq, if_neg hk1]
        exact ih hnd.2 htl hself

/-- The per-field loop of fast-deep-equal succeeds when every field finds a
match. -/
theorem fieldsSubset_of_all (fs : List (String × Value)) :
    ∀ (fa : List (String × Value)),
      (∀ p ∈ fa, findEq p.1 p.2 fs = true) → fieldsSubset fa fs = true := by
  intro fa
  induction fa with
  | nil => intro _; simp [fieldsSubset]
  | cons hd tl ih =>
      intro h
      obtain ⟨k1, v1⟩ := hd
      rw [fieldsSubset, Bool.and_eq_true]
      exact ⟨h (k1, v1) (List.mem_cons_self _ _),
        ih (fun p hp => h p (List.mem_cons_of_mem _ hp))⟩

/-- fast-deep-equal is reflexive on well-formed values. -/
theorem isEqual_refl : ∀ (v : Value), v.wellFormed = true →
    isEqual v v = true
  | .null, _ => by simp [isEqual]
  | .undefined, _ => by simp [isEqual]
  | .str _, _ => by simp [isEqual]
  | .num n, _ => by cases n <;> simp [isEqual, jsNumEq]
  | .bool _, _ => by simp [isEqual]
  | .obj fs, h => by
      rw [Value.wellFormed] at h
      rw [Bool.and_eq_true] at h
      rw [isEqual, Bool.and_eq_true]
      refine ⟨by simp, ?_⟩
      apply fieldsSubset_of_all
      intro p hp
      obtain ⟨pk, pv⟩ := p
      have hwfv : pv.wellFormed = true :=
        wellFormed_of_mem pk pv fs h.2 hp
      exact findEq_self pk pv fs h.1 hp (isEqual_refl pv hwfv)
termination_by v => sizeOf v
decreasing_by
  simp_wf
  have := List.sizeOf_lt_of_mem hp
  simp only [Prod.mk.sizeOf_spec] at this
  omega

/-- C5. After reset, from any prior state: values is the (cloned) initial
values, hence deep-equal to them at every key; errors and touched are
empty; every dirty entry recomputes to false; and a second reset changes
nothing. -/
theorem C5_reset (initialValues : Fields) (s : FormState)
    (hwf : fieldsWellFormed initialValues = true) :
    (reset initialValues s).values = initialValues ∧
    (∀ k, isEqual (getField (reset initialValues s).values k)
      (getField initialValues k) = true) ∧
    (reset initialValues s).errors = [] ∧
    (reset initialValues s).touched = [] ∧
    (∀ p ∈ dirty initialValues (reset initialValues s).values, p.2 = false) ∧
    isDirty (dirty initialValues (reset initialValues s).values) = false ∧
    reset initialValues (reset initialValues s) = reset initialValues s := by
  have hv : (reset initialValues s).values = initialValues := by
    simp [reset, cloneFields_eq_self]
  have hall : ∀ p ∈ dirty initialValues initialValues, p.2 = false := by
    intro p hp
    rcases List.mem_map.mp hp with ⟨q, _, hpq⟩
    rw [← hpq]
    show (!(isEqual (getField initialValues q.1)
      (getField initialValues q.1))) = false
    rw [isEqual_refl _ (getField_wellFormed initialValues hwf q.1)]
    rfl
  refine ⟨hv, ?_, rfl, rfl, ?_, ?_, rfl⟩
  · intro k
    rw [hv]
    exact isEqual_refl _ (getField_wellFormed initialValues hwf k)
  · intro p hp
    rw [hv] at hp
    exact hall p hp
  · rw [hv]
    unfold isDirty
    rw [List.any_eq_false]
    intro p hp
    rw [hall p hp]
    simp

/-- Witness for C5 at the sample initial values (holding a nested object)
and a state mutated away from them. -/
theorem C5_reset_witness :
    fieldsWellFormed sampleInitialValues = true ∧
    (reset sampleInitialValues mutatedState).values = sampleInitialValues ∧
    isDirty
        (dirty sampleInitialValues
          (reset sampleInitialValues mutatedState).values) = false ∧
    reset sampleInitialValues (reset sampleInitialValues mutatedState) =
      reset sampleInitialValues mutatedState := by
  have hwf : fieldsWellFormed sampleInitialValues = true := by
    simp [sampleInitialValues, fieldsWellFormed, Value.wellFormed, keysNodup]
  have h := C5_reset sampleInitialValues mutatedState hwf
  exact ⟨hwf, h.1, h.2.2.2.2.2.1, h.2.2.2.2.2.2⟩

/-- C7. The text binding fails fast with a type-mismatch error when the
current stored value is non-null and not a string, and on a nullish current
value returns an adapter rendering the empty string. -/
theorem C7_text_binding (s : FormState) (name : String) :
    ((getField s.values name).isNullish = false →
      (getField s.values name).isString = false →
      text s name =
        .error
          ("useSimpleFormState.text(): field " ++ name ++
            " is not a string")) ∧
    ((getField s.values name).isNullish = true →
      ∃ a, text s name = .ok a ∧ a.value = .str "") := by
  constructor
  · intro h1 h2
    unfold text
    rw [h1, h2]
    rfl
  · intro h1
    unfold text
    rw [h1]
    refine ⟨_, rfl, ?_⟩
    show jsCoalesce (getField s.values name) (.str "") = .str ""
    unfold jsCoalesce
    rw [h1]
    rfl

/-- Witness for C7: the numeric field b of the sample state rejects the text
binding; the absent field zz renders as the empty string. -/
theorem C7_text_binding_witness :
    text sampleState "b" =
      .error "useSimpleFormState.text(): field b is not a string" ∧
    (text sampleState "zz").map (fun a => a.value) = .ok (.str "") := by
  have h := C7_text_binding sampleState "b"
  have h2 := C7_text_binding sampleState "zz"
  constructor
  · have := h.1 (by simp [sampleState, getField, lookupEntry, List.find?,
      Value.isNullish]) (by simp [sampleState, getField, lookupEntry,
      List.find?, Value.isString])
    simpa using this
  · obtain ⟨a, ha, hv⟩ := h2.2 (by simp [sampleState, getField, lookupEntry,
      List.find?, Value.isNullish])
    rw [ha]
    simp [Except.map, hv]

/-- C8 counterexample: on a field whose stored value is a non-null
non-boolean (a string), the checkbox binding does not return an adapter; it
fails fast with a type-mismatch error, contradicting the claim that an
adapter is returned regardless of mismatch. -/
theorem C8_counterexample :
    checkbox mismatchState "f" =
      .error "useSimpleFormState.checkbox(): field f is not a boolean" := rfl

/-- C8 (amended). The checkbox binding fails fast when the stored value is
non-null and not a boolean; when the stored value is a boolean or nullish it
returns an adapter whose checked is the boolean coercion of the value
(nullish renders false) and whose change handler stores the raw boolean via
setFieldValue. -/
theorem C8_checkbox_binding (s : FormState) (name : String) :
    ((getField s.values name).isNullish = false →
      (getField s.values name).isBool = false →
      checkbox s name =
        .error
          ("useSimpleFormState.checkbox(): field " ++ name ++
            " is not a boolean")) ∧
    ((getField s.values name).isBool = true ∨
        (getField s.values name).isNullish = true →
      ∃ a, checkbox s name = .ok a ∧
        a.checked = (getField s.values name).toBool ∧
        ((getField s.values name).isNullish = true → a.checked = false) ∧
        (∀ b, a.onChange b = setFieldValue s name (.bool b))) := by
  constructor
  · intro h1 h2
    unfold checkbox
    rw [h1, h2]
    rfl
  · intro h1
    have hcond : (!(getField s.values name).isNullish &&
        !(getField s.values name).isBool) = false := by
      rcases h1 with hb | hn
      · rw [hb]; simp
      · rw [hn]; simp
    unfold checkbox
    rw [hcond]
    simp only [Bool.false_eq_true, if_neg, not_false_iff]
    refine ⟨_, rfl, rfl, ?_, fun b => rfl⟩
    intro hn
    show (getField s.values name).toBool = false
    cases hv : getField s.values name with
    | null => rfl
    | undefined => rfl
    | str a => rw [hv] at hn; simp [Value.isNullish] at hn
    | num a => rw [hv] at hn; simp [Value.isNullish] at hn
    | bool a => rw [hv] at hn; simp [Value.isNullish] at hn
    | obj a => rw [hv] at hn; simp [Value.isNullish] at hn

/-- Witness for C8 (amended): boolState rejects the checkbox binding on its
string field, renders true for its true boolean field and false for an
absent field. -/
theorem C8_checkbox_binding_witness :
    checkbox boolState "s" =
      .error "useSimpleFormState.checkbox(): field s is not a boolean" ∧
    (checkbox boolState "flag").map (fun a => a.checked) = .ok true ∧
    (checkbox boolState "zz").map (fun a => a.checked) = .ok false := by
  have h1 := C8_checkbox_binding boolState "s"
  have h2 := C8_checkbox_binding boolState "flag"
  have h3 := C8_checkbox_binding boolState "zz"
  refine ⟨?_, ?_, ?_⟩
  · have := h1.1 (by simp [boolState, getField, lookupEntry, List.find?,
      Value.isNullish]) (by simp [boolState, getField, lookupEntry,
      List.find?, Value.isBool])
    simpa using this
  · obtain ⟨a, ha, hc, _, _⟩ := h2.2 (Or.inl (by simp [boolState, getField,
      lookupEntry, List.find?, Value.isBool]))
    rw [ha]
    simp [Except.map, hc, boolState, getField, lookupEntry, List.find?,
      Value.toBool]
  · obtain ⟨a, ha, _, hc, _⟩ := h3.2 (Or.inr (by simp [boolState, getField,
      lookupEntry, List.find?, Value.isNullish]))
    rw [ha]
    simp [Except.map,
      hc (by simp [boolState, getField, lookupEntry, List.find?,
        Value.isNullish])]

/-- C9. Whenever the number binding returns an adapter, its change handler
stores null for the empty input (and null is distinct from the number 0),
stores Number(input) for every non-empty input with no parse-success check,
and a non-numeric input such as abc yields NaN, stored as-is in the values
of the field. -/
theorem C9_number_onChange (s : FormState) (name : String)
    (a : NumberAdapter) (h : number s name = .ok a) :
    a.onChange "" = setFieldValue s name .null ∧
    Value.null ≠ Value.num (.int 0) ∧
    (∀ input, input ≠ "" →
      a.onChange input =
        setFieldValue s name (.num (jsNumberOfString input))) ∧
    jsNumberOfString "abc" = .nan ∧
    (∀ input, input ≠ "" → jsNumberOfString input = .nan →
      getField (a.onChange input).values name = .num .nan) := by
  have ha : a.onChange = fun input =>
      setFieldValue s name
        (if input = "" then .null else .num (jsNumberOfString input)) := by
    unfold number at h
    by_cases hc : (!(getField s.values name).isNullish &&
        !(getField s.values name).isNumber) = true
    · rw [if_pos hc] at h
      cases h
    · rw [if_neg hc] at h
      cases h
      rfl
  refine ⟨?_, ?_, ?_, ?_, ?_⟩
  · rw [ha]
    show setFieldValue s name
        (if ("" : String) = "" then .null else .num (jsNumberOfString "")) = _
    rw [if_pos rfl]
  · intro hcontra
    cases hcontra
  · intro input hin
    rw [ha]
    show setFieldValue s name
        (if input = "" then .null else .num (jsNumberOfString input)) = _
    rw [if_neg hin]
  · decide
  · intro input hin hnan
    rw [ha]
    show getField (setFieldValue s name
      (if input = "" then .null else .num (jsNumberOfString input))).values
        name = .num .nan
    rw [if_neg hin, hnan]
    simp [setFieldValue, getField, lookupEntry_setEntry_self]

/-- Witness for C9 at the concrete null-valued numeric field: empty input
stores null; the input abc stores NaN. -/
theorem C9_number_onChange_witness :
    nullNumberAdapter.onChange "" = setFieldValue nullNumberState "n" .null ∧
    getField (nullNumberAdapter.onChange "abc").values "n" = .num .nan := by
  have h := C9_number_onChange nullNumberState "n" nullNumberAdapter rfl
  exact ⟨h.1, h.2.2.2.2 "abc" (by decide) h.2.2.2.1⟩

end UseSimpleFormState
